import Mathlib

/-!
Verification of the median-regression trading bot
(`median_regression.py` and `autosell.py`).

The per-position exit logic, rolling statistics and the tracking state
of both polling loops are embedded as Lean functions over `ℚ`
(`ℝ` where the code takes a square root), and the properties of the
specification are proved or refuted against them.
-/

namespace MedianRegression

/-! ### Strategy constants (module-level constants of both files) -/

/-- Constant `ROLLING_WINDOW = 15` (the default `MR_WINDOW`). -/
def ROLLING_WINDOW : ℕ := 15

/-- Constant `DEVIATION_THRESHOLD_PCT = 5.0` (the default `MR_THRESHOLD`), in percent. -/
def DEVIATION_THRESHOLD_PCT : ℚ := 5

/-- Constant `MIN_HOLD_TIME = 30` seconds. -/
def MIN_HOLD_TIME : ℚ := 30

/-- Constant `STOP_LOSS_PERCENT = 0.10`. -/
def STOP_LOSS_PERCENT : ℚ := 10 / 100

/-- Constant `STOP_LOSS_FLOOR = 0.35` dollars. -/
def STOP_LOSS_FLOOR : ℚ := 35 / 100

/-- Constant `MAX_LOSS_PER_TRADE = 0.12`. -/
def MAX_LOSS_PER_TRADE : ℚ := 12 / 100

/-- Constant `TIME_BASED_STOP_LOSS = 2700` seconds (45 minutes). -/
def TIME_BASED_STOP_LOSS : ℚ := 2700

/-- Constant `BREAK_EVEN_TIMER = 1800` seconds (30 minutes). -/
def BREAK_EVEN_TIMER : ℚ := 1800

/-! ### Association-list state helpers

The Python code keeps its per-ticker tracking state in `dict`s; they are
modelled as association lists with lookup `aget`, overwrite `aput` and
delete `adel`. -/

/-- Dictionary lookup: the value stored under key `k`, if any. -/
def aget {α : Type} (m : List (String × α)) (k : String) : Option α :=
  (m.find? (fun p => p.1 == k)).map (fun p => p.2)

/-- Dictionary write `m[k] = v` (overwrites any previous binding of `k`). -/
def aput {α : Type} (m : List (String × α)) (k : String) (v : α) :
    List (String × α) :=
  (k, v) :: m.filter (fun p => p.1 != k)

/-- Dictionary delete `del m[k]` (no-op when `k` is absent). -/
def adel {α : Type} (m : List (String × α)) (k : String) :
    List (String × α) :=
  m.filter (fun p => p.1 != k)

/-! ### Per-position arithmetic shared by both scripts -/

/-- Key derivation `position_key = f"{ticker}_{shares}"` (line 646 of `median_regression.py`,
line 377 of `autosell.py`). -/
def position_key (ticker : String) (shares : ℕ) : String :=
  ticker ++ "_" ++ toString shares

/-- Entry price `entry = (cost / shares / 100) if shares > 0 else 0`
(line 619 of `median_regression.py`; the venue reports cost in cents). -/
def entry_of (cost : ℚ) (shares : ℕ) : ℚ :=
  if 0 < shares then cost / (shares : ℚ) / 100 else 0

/-- Profit percentage `pnl = ((current - entry) / entry * 100) if entry > 0 else 0.0`
(line 637 of `median_regression.py`, line 371 of `should_execute_stop`,
line 388 of `autosell.py`). -/
def pnl_calc (current entry : ℚ) : ℚ :=
  if 0 < entry then (current - entry) / entry * 100 else 0

/-- Function `calculate_stop_loss(entry, current_bid)`: the higher of the
percentage stop and the absolute floor.  The `current_bid` argument is
unused, as in the source. -/
def calculate_stop_loss (entry _current_bid : ℚ) : ℚ :=
  max (entry * (1 - STOP_LOSS_PERCENT)) STOP_LOSS_FLOOR

/-- The reason returned by `should_execute_stop` (the format strings of the
source distinguish exactly these four cases). -/
inductive StopReason : Type
  | stopLoss
  | maxLoss
  | timeBased
  | breakEven
deriving DecidableEq, Repr

/-- Function `should_execute_stop(ticker, current_bid, entry, hold_time)`
(lines 368-392 of `median_regression.py`, identical logic at
lines 214-245 of `autosell.py`): `none` when no safety stop fires,
otherwise the first matching stop reason. -/
def should_execute_stop (current_bid entry hold_time : ℚ) : Option StopReason :=
  let stop_price := calculate_stop_loss entry current_bid
  let pnl_percent := pnl_calc current_bid entry
  if hold_time < MIN_HOLD_TIME then none
  else if current_bid ≤ stop_price then some .stopLoss
  else if pnl_percent ≤ -(MAX_LOSS_PER_TRADE * 100) then some .maxLoss
  else if TIME_BASED_STOP_LOSS ≤ hold_time ∧ pnl_percent < 0 then some .timeBased
  else if BREAK_EVEN_TIMER ≤ hold_time ∧ -2 ≤ pnl_percent ∧ pnl_percent ≤ 3 then
    some .breakEven
  else none

/-! ### Rolling statistics -/

/-- Appending to a `deque(maxlen=ROLLING_WINDOW)` (line 623, 630):
append the new observation and drop the oldest entries beyond capacity.
`autosell.py` does the same with `append` plus `pop(0)` past length 15. -/
def updateHist (hist : List ℚ) (x : ℚ) : List ℚ :=
  let h := hist ++ [x]
  h.drop (h.length - ROLLING_WINDOW)

/-- Python `statistics.median`: sort ascending; the middle element for odd
length, the mean of the two middle elements for even length. -/
def pymedian (l : List ℚ) : ℚ :=
  let s := l.insertionSort (· ≤ ·)
  let n := s.length
  if n % 2 = 1 then s.getD (n / 2) 0
  else (s.getD (n / 2 - 1) 0 + s.getD (n / 2) 0) / 2

/-- Median selection `med = median(price_hist) if len(price_hist) >= 3 else current`
(line 631 of `median_regression.py`). -/
def cycle_median (window : List ℚ) (current : ℚ) : ℚ :=
  if 3 ≤ window.length then pymedian window else current

/-- Deviation `dev_pct = (current - med) / med * 100 if med != 0 else 0.0`
(line 636). -/
def dev_calc (current med : ℚ) : ℚ :=
  if med ≠ 0 then (current - med) / med * 100 else 0

/-- Arithmetic mean `sum(price_list) / len(price_list)` (line 223). -/
def listMean (l : List ℚ) : ℚ := l.sum / (l.length : ℚ)

/-- The variance computed by Python's `statistics.stdev`: the SAMPLE
variance, with Bessel's `n - 1` divisor. -/
def sampleVariance (l : List ℚ) : ℚ :=
  ((l.map (fun x => (x - listMean l) ^ 2)).sum) / ((l.length : ℚ) - 1)

/-- The population variance, with divisor `n`; `statistics.pstdev` would
take its square root.  Used only to state what the specification asks
for, so that it can be compared with what the code computes. -/
def popVariance (l : List ℚ) : ℚ :=
  ((l.map (fun x => (x - listMean l) ^ 2)).sum) / (l.length : ℚ)

/-- Python `statistics.stdev(price_list)`: the sample standard deviation. -/
noncomputable def pystdev (l : List ℚ) : ℝ :=
  Real.sqrt ((sampleVariance l : ℚ) : ℝ)

/-- Function `calculate_dynamic_threshold(prices)` (lines 214-232 of
`median_regression.py`): the base threshold for short windows, otherwise
the base scaled by the coefficient of variation taken from the sample
standard deviation. -/
noncomputable def calculate_dynamic_threshold (prices : List ℚ) : ℝ :=
  if prices.length < 3 then ((DEVIATION_THRESHOLD_PCT : ℚ) : ℝ)
  else
    let mean_price := listMean prices
    let volatility : ℝ :=
      if 0 < mean_price then pystdev prices / ((mean_price : ℚ) : ℝ) else 0
    let volatility_pct := volatility * 100
    ((DEVIATION_THRESHOLD_PCT : ℚ) : ℝ) * (1 + volatility_pct / 100 * 1)

/-- Modelled from the spec: the dynamic threshold as §4.1 of the
specification describes it, with the coefficient of variation taken from
the POPULATION standard deviation of the window.  Stated only to compare
with `calculate_dynamic_threshold`, which is translated from the code. -/
noncomputable def spec_dynamic_threshold (prices : List ℚ) : ℝ :=
  if prices.length < 3 then ((DEVIATION_THRESHOLD_PCT : ℚ) : ℝ)
  else
    let mean_price := listMean prices
    let volatility_pct : ℝ :=
      if 0 < mean_price then
        Real.sqrt ((popVariance prices : ℚ) : ℝ) / ((mean_price : ℚ) : ℝ) * 100
      else 0
    ((DEVIATION_THRESHOLD_PCT : ℚ) : ℝ) * (1 + volatility_pct / 100)

/-! ### The exit decision of the `median_regression.py` main loop -/

/-- The exit the main loop commits for a position: the manual-override
block, the median-reversion block, or one of the safety stops of
`should_execute_stop` (lines 657-683). -/
inductive ExitReason : Type
  | manual
  | medianReversion
  | stop (r : StopReason)
deriving DecidableEq, Repr

open scoped Classical in
/-- The three sequential sell blocks of `main_loop` (lines 660-683),
as a function of the scalars the loop computed just above them.
`manualReq` is the `manual_sell_requested` flag, `inSold` is
`position_key in sold_positions`, and `ok r` tells whether the order
submission `execute_order` for block `r` succeeds.  The result is the
exit that obtained a SUCCESSFUL submission, if any: a failed submission
falls through to the next block exactly as in the source, and a
successful one sets `sold` and adds the key to `sold_positions`, so the
later blocks are skipped. -/
noncomputable def decide_exits (manualReq inSold : Bool) (dev : ℚ) (thr : ℝ)
    (pnl current entry hold : ℚ) (ok : ExitReason → Bool) : Option ExitReason :=
  if manualReq && !inSold && ok .manual then some .manual
  else if !inSold && decide (thr ≤ ((dev : ℚ) : ℝ)) && decide (0 < pnl)
      && ok .medianReversion then some .medianReversion
  else if !inSold then
    match should_execute_stop current entry hold with
    | some r => if ok (.stop r) then some (.stop r) else none
    | none => none
  else none

/-! ### The tracking state of `main_loop` (`median_regression.py`) -/

/-- The mutable per-ticker dictionaries of `main_loop` (lines 586-591):
`price_hist`, `entry_times`, `highest_prices`, `known_positions` and the
`sold_positions` set.  (`last_prices` is declared in the source but
never used.) -/
structure MState : Type where
  price_hist : List (String × List ℚ)
  entry_times : List (String × ℚ)
  highest_prices : List (String × ℚ)
  known_positions : List String
  sold_positions : List String
deriving DecidableEq, Repr

/-- The empty state the loop starts from. -/
def initMState : MState := ⟨[], [], [], [], []⟩

/-- One observed position of a cycle: the venue's report
(`ticker`, `position`, `market_exposure`) together with the quote
(`yes_bid_dollars`) and the oracle telling which order submissions would
succeed for it this cycle. -/
structure Obs : Type where
  ticker : String
  shares : ℕ
  cost : ℚ
  bid : ℚ
  ok : ExitReason → Bool

/-- The updated rolling window for a ticker (lines 622-630): the stored
history (a fresh deque when the ticker is new) with the current bid
appended. -/
def window_of (s : MState) (t : String) (bid : ℚ) : List ℚ :=
  updateHist ((aget s.price_hist t).getD []) bid

/-- The median the loop uses this cycle (line 631). -/
def med_of (s : MState) (t : String) (bid : ℚ) : ℚ :=
  cycle_median (window_of s t bid) bid

/-- The deviation percentage the loop uses this cycle (line 636). -/
def dev_of (s : MState) (t : String) (bid : ℚ) : ℚ :=
  dev_calc bid (med_of s t bid)

/-- The volatility-adjusted threshold the loop uses this cycle
(line 634). -/
noncomputable def thr_of (s : MState) (t : String) (bid : ℚ) : ℝ :=
  calculate_dynamic_threshold (window_of s t bid)

/-- The stored entry time for a ticker, `now` when the ticker is new
(lines 624-625), and the hold seconds derived from it (line 638). -/
def entry_time_of (s : MState) (t : String) (now : ℚ) : ℚ :=
  (aget s.entry_times t).getD now

/-- The peak bid after this cycle's update (lines 626-627, 641-643). -/
def peak_of (s : MState) (t : String) (bid : ℚ) : ℚ :=
  max ((aget s.highest_prices t).getD bid) bid

/-- Committing the result of the three sell blocks (lines 685-722): on
a successful sale the key joins `sold_positions` while `price_hist` and
`entry_times` for the ticker are deleted, `highest_prices` and
`known_positions` keep their updated entries; without a sale all
tracking dictionaries simply keep their per-cycle updates. -/
def medreg_commit (s : MState) (t key : String) (window : List ℚ)
    (et peak : ℚ) (known1 : List String) :
    Option ExitReason → MState × List (String × ExitReason)
  | some r =>
      (⟨adel s.price_hist t, adel s.entry_times t,
        aput s.highest_prices t peak, known1, key :: s.sold_positions⟩,
       [(key, r)])
  | none =>
      (⟨aput s.price_hist t window, aput s.entry_times t et,
        aput s.highest_prices t peak, known1, s.sold_positions⟩,
       [])

/-- One iteration of the `for pos in all_pos` body of `main_loop`
(lines 607-722) for one observed position: positions with zero shares
are skipped outright (line 611); otherwise the tracking dictionaries are
updated, the statistics computed, the three sell blocks run, and the
result committed.  Returns the new state and the successful sells
`(position_key, reason)` of this iteration. -/
noncomputable def medreg_step (manualReq : Bool) (now : ℚ) (s : MState)
    (o : Obs) : MState × List (String × ExitReason) :=
  if o.shares = 0 then (s, [])
  else
    medreg_commit s o.ticker (position_key o.ticker o.shares)
      (window_of s o.ticker o.bid) (entry_time_of s o.ticker now)
      (peak_of s o.ticker o.bid)
      (if position_key o.ticker o.shares ∈ s.known_positions
       then s.known_positions
       else position_key o.ticker o.shares :: s.known_positions)
      (decide_exits manualReq
        (decide (position_key o.ticker o.shares ∈ s.sold_positions))
        (dev_of s o.ticker o.bid) (thr_of s o.ticker o.bid)
        (pnl_calc o.bid (entry_of o.cost o.shares))
        o.bid (entry_of o.cost o.shares)
        (now - entry_time_of s o.ticker now) o.ok)

/-- One full pass over the positions of a cycle, threading the state and
collecting the successful sells in order. -/
noncomputable def medreg_cycle (manualReq : Bool) (now : ℚ) :
    MState → List Obs → MState × List (String × ExitReason)
  | s, [] => (s, [])
  | s, o :: rest =>
    let r := medreg_step manualReq now s o
    let r2 := medreg_cycle manualReq now r.1 rest
    (r2.1, r.2 ++ r2.2)

/-- One polling cycle: its wall-clock time, the manual-sell flag as read
during the cycle, and the positions the venue reports. -/
structure MCycle : Type where
  now : ℚ
  manualReq : Bool
  positions : List Obs

/-- A whole run of the polling loop over a sequence of cycles. -/
noncomputable def medreg_run :
    MState → List MCycle → MState × List (String × ExitReason)
  | s, [] => (s, [])
  | s, c :: rest =>
    let r := medreg_cycle c.manualReq c.now s c.positions
    let r2 := medreg_run r.1 rest
    (r2.1, r.2 ++ r2.2)

/-! ### The `autosell.py` variant of the loop -/

/-- Function `get_trailing_stop(pnl_percent, peak)` (lines 197-212 of
`autosell.py`): the leash distance and tier for the current profit
level, `none` below five percent. -/
def get_trailing_stop (pnl_percent : ℚ) : Option (ℚ × ℕ) :=
  if 30 ≤ pnl_percent then some (5 / 1000, 4)
  else if 20 ≤ pnl_percent then some (1 / 100, 3)
  else if 10 ≤ pnl_percent then some (2 / 100, 2)
  else if 5 ≤ pnl_percent then some (3 / 100, 1)
  else none

/-- A successful sell of the `autosell.py` loop: a tiered trailing exit
or a safety stop. -/
inductive ASell : Type
  | trailing (tier : ℕ)
  | stop (r : StopReason)
deriving DecidableEq, Repr

/-- The module-level tracker dictionaries of `autosell.py`
(lines 39, 45-49): `POSITION_ENTRY_TIMES`, `highest_prices`,
`last_prices`, `last_shares`, `price_history`, `known_positions`. -/
structure AState : Type where
  entry_times : List (String × ℚ)
  highest_prices : List (String × ℚ)
  last_prices : List (String × ℚ)
  last_shares : List (String × ℕ)
  price_history : List (String × List ℚ)
  known_positions : List String
deriving DecidableEq, Repr

/-- The empty starting state of `autosell.py` (an absent log file makes
`load_known_positions` return the empty dictionary). -/
def initAState : AState := ⟨[], [], [], [], [], []⟩

/-- One observed position for the `autosell.py` loop; `okT` and `okS`
tell whether the trailing-exit and the stop order submissions would
succeed this cycle. -/
structure AObs : Type where
  ticker : String
  shares : ℕ
  cost : ℚ
  bid : ℚ
  okT : Bool
  okS : Bool

/-- Entry price `entry = (cost / shares) / 100 if cost > 100 else (cost / shares)`
(line 374 of `autosell.py`): the magnitude heuristic for the cost-basis
unit. -/
def autosell_entry (cost : ℚ) (shares : ℕ) : ℚ :=
  if 100 < cost then cost / (shares : ℚ) / 100 else cost / (shares : ℚ)

/-- The stop-loss tail of the `autosell.py` position body
(lines 418-430): run after the trailing block did not sell.  On a
successful stop order, the key leaves `known_positions` and the ticker
leaves `POSITION_ENTRY_TIMES`; live trading then `continue`s. -/
def autosell_stop_phase (st : AState) (t key : String)
    (bid entry hold : ℚ) (okS : Bool) : AState × List (String × ASell) :=
  match should_execute_stop bid entry hold with
  | some r =>
      if okS then
        (⟨adel st.entry_times t, st.highest_prices, st.last_prices,
          st.last_shares, st.price_history, st.known_positions.erase key⟩,
         [(key, ASell.stop r)])
      else (st, [])
  | none => (st, [])

/-- One iteration of the `for pos in all_raw` body of `autosell.py`
(lines 339-439): skip zero-share and sub-cent positions, update entry
time, price history, share-change peak reset, last price, peak; then the
multi-tier trailing exit, falling back to `should_execute_stop`.  On a
successful sale only `known_positions` and `POSITION_ENTRY_TIMES` are
cleaned up: the other trackers keep their entries. -/
def autosell_step (s : AState) (now : ℚ) (o : AObs) :
    AState × List (String × ASell) :=
  if o.shares = 0 then (s, [])
  else if o.bid < 1 / 100 then (s, [])
  else
    let t := o.ticker
    let et := (aget s.entry_times t).getD now
    let entry_times1 := aput s.entry_times t et
    let hold := now - et
    let price_history1 :=
      aput s.price_history t (updateHist ((aget s.price_history t).getD []) o.bid)
    let shareSame := aget s.last_shares t = some o.shares
    let highest1 := if shareSame then s.highest_prices else aput s.highest_prices t o.bid
    let last_shares1 := if shareSame then s.last_shares else aput s.last_shares t o.shares
    let last_prices1 := aput s.last_prices t o.bid
    let entry := autosell_entry o.cost o.shares
    let key := position_key t o.shares
    let known1 :=
      if key ∈ s.known_positions then s.known_positions
      else key :: s.known_positions
    let highest2 :=
      if ((aget highest1 t).getD 0) < o.bid then aput highest1 t o.bid else highest1
    let peak := (aget highest2 t).getD 0
    let pnl := pnl_calc o.bid entry
    let base : AState :=
      ⟨entry_times1, highest2, last_prices1, last_shares1, price_history1, known1⟩
    match get_trailing_stop pnl with
    | some lt =>
        if o.bid ≤ peak - lt.1 then
          if o.okT then
            (⟨adel entry_times1 t, highest2, last_prices1, last_shares1,
              price_history1, known1.erase key⟩,
             [(key, ASell.trailing lt.2)])
          else autosell_stop_phase base t key o.bid entry hold o.okS
        else autosell_stop_phase base t key o.bid entry hold o.okS
    | none => autosell_stop_phase base t key o.bid entry hold o.okS

/-- One full pass over the positions of an `autosell.py` cycle. -/
def autosell_cycle (now : ℚ) :
    AState → List AObs → AState × List (String × ASell)
  | s, [] => (s, [])
  | s, o :: rest =>
    let r := autosell_step s now o
    let r2 := autosell_cycle now r.1 rest
    (r2.1, r.2 ++ r2.2)

/-- A run of the `autosell.py` loop over a sequence of cycles, each a
wall-clock time together with the positions the venue reports. -/
def autosell_run :
    AState → List (ℚ × List AObs) → AState × List (String × ASell)
  | s, [] => (s, [])
  | s, c :: rest =>
    let r := autosell_cycle c.1 s c.2
    let r2 := autosell_run r.1 rest
    (r2.1, r.2 ++ r2.2)

/-! ### Error propagation of one polling cycle

`main_loop` wraps each whole cycle — `get_positions` and the entire
`for pos in all_pos` body — in a single `try`; there is no per-position
handler.  An exception while fetching or evaluating one position
therefore jumps to the outer `except` (line 736), which logs, sleeps one
second, and retries the whole cycle. -/

/-- The per-position portion of one cycle (lines 607-722) under the
single `try` of `main_loop`: `f p` is the processing of position `p`,
returning `none` when it raises (for example `client.get_market`
failing).  The result is the list of positions actually processed with
their results, and whether the cycle ran to completion. -/
def cycle_process {α β : Type} (f : α → Option β) :
    List α → List (α × β) × Bool
  | [] => ([], true)
  | p :: ps =>
    match f p with
    | none => ([], false)
    | some r =>
      let rest := cycle_process f ps
      ((p, r) :: rest.1, rest.2)

/-- Potential of a key: `1` while the key can still be sold, `0` once it
is in `sold_positions`.  Bookkeeping device for the at-most-once
argument. -/
def potential (s : MState) (k : String) : ℕ :=
  if k ∈ s.sold_positions then 0 else 1

/-- A concrete reachable loop state used to exercise the evaluator: the
ticker `T` entered at time `0` with entry price 10¢ (cost 100¢ for 10
shares), price history `[0.20, 0.20]`, peak `0.30`, already announced,
not sold. -/
def cexState : MState :=
  ⟨[("T", [1/5, 1/5])], [("T", 0)], [("T", 3/10)], ["T_10"], []⟩

/-! ## Helper lemmas -/

theorem aget_aput_self {α : Type} (m : List (String × α)) (k : String) (v : α) :
    aget (aput m k v) k = some v := by
  simp [aget, aput, List.find?]

/-- A key already in `sold_positions` is blocked in all three sell
blocks: no exit is ever decided for it again. -/
theorem decide_exits_sold (m : Bool) (dev : ℚ) (thr : ℝ)
    (pnl current entry hold : ℚ) (ok : ExitReason → Bool) :
    decide_exits m true dev thr pnl current entry hold ok = none := by
  simp [decide_exits]

/-- When every order submission fails, no block reports a successful
exit. -/
theorem decide_exits_all_fail (m i : Bool) (dev : ℚ) (thr : ℝ)
    (pnl current entry hold : ℚ) :
    decide_exits m i dev thr pnl current entry hold (fun _ => false) = none := by
  simp only [decide_exits, Bool.and_false]
  rcases should_execute_stop current entry hold with _ | r <;> simp

/-- The rolling window `cexState` produces for a bid of 30¢. -/
theorem cex_window_eval : window_of cexState "T" (3/10) = [1/5, 1/5, 3/10] := by
  norm_num [window_of, cexState, aget, updateHist, ROLLING_WINDOW, List.find?]

/-- The deviation `cexState` produces for a bid of 30¢: the median of
`[0.20, 0.20, 0.30]` is 20¢, so the deviation is 50%. -/
theorem cex_dev_eval : dev_of cexState "T" (3/10) = 50 := by
  rw [dev_of, med_of, cex_window_eval]
  norm_num [dev_calc, cycle_median, pymedian, List.insertionSort,
    List.orderedInsert]

/-- The dynamic threshold `cexState` produces for a bid of 30¢ is below
the 50% deviation: the sample variance of the window is `1/300`, the
mean `7/30`, and `√(1/300) ≤ 1/17` bounds the threshold by
`5 * (1 + 30/(7 * 17)) < 50`. -/
theorem cex_thr_le : thr_of cexState "T" (3/10) ≤ ((50 : ℚ) : ℝ) := by
  rw [thr_of, cex_window_eval]
  have hs : sampleVariance [1/5, 1/5, 3/10] = 1/300 := by
    norm_num [sampleVariance, listMean]
  have hm : listMean [1/5, 1/5, 3/10] = 7/30 := by norm_num [listMean]
  rw [calculate_dynamic_threshold, if_neg (by norm_num)]
  simp only [pystdev, hs, hm, if_pos (show (0:ℚ) < 7/30 by norm_num)]
  have h17 : Real.sqrt ((1/300 : ℚ) : ℝ) ≤ 1/17 := by
    have h1 : ((1/300 : ℚ) : ℝ) ≤ (1/17)^2 := by push_cast; norm_num
    have h2 := Real.sqrt_le_sqrt h1
    rwa [Real.sqrt_sq (by norm_num : (0:ℝ) ≤ 1/17)] at h2
  have h0 : (0:ℝ) ≤ Real.sqrt ((1/300 : ℚ) : ℝ) := Real.sqrt_nonneg _
  have hc1 : ((7/30 : ℚ) : ℝ) = 7/30 := by push_cast; ring
  have hc2 : ((DEVIATION_THRESHOLD_PCT : ℚ) : ℝ) = 5 := by
    norm_num [DEVIATION_THRESHOLD_PCT]
  have hc3 : ((50 : ℚ) : ℝ) = 50 := by push_cast; ring
  rw [hc1, hc2, hc3]
  nlinarith [h17, h0]

/-- On `cexState` the median-reversion block fires at ANY hold time when
the submission succeeds: deviation 50% clears the threshold and the 10¢
entry against a 30¢ bid gives a 200% profit. -/
theorem cex_median_fires (hold : ℚ) :
    decide_exits false false (dev_of cexState "T" (3/10))
        (thr_of cexState "T" (3/10)) (pnl_calc (3/10) (entry_of 100 10))
        (3/10) (entry_of 100 10) hold (fun _ => true)
      = some ExitReason.medianReversion := by
  have hpnl : pnl_calc (3/10) (entry_of 100 10) = 200 := by
    norm_num [pnl_calc, entry_of]
  have hdev : thr_of cexState "T" (3/10) ≤ ((dev_of cexState "T" (3/10) : ℚ) : ℝ) := by
    rw [cex_dev_eval]
    exact cex_thr_le
  rw [hpnl]
  simp [decide_exits, hdev]

/-- Commit-level accounting: one commit spends at most the potential of
the key, provided a key already sold can not be decided again. -/
theorem medreg_commit_count (s : MState) (t key : String) (w : List ℚ)
    (et peak : ℚ) (k1 : List String) (d : Option ExitReason) (k : String)
    (hblock : key ∈ s.sold_positions → d = none) :
    (medreg_commit s t key w et peak k1 d).2.countP (fun e => e.1 == k)
      + potential (medreg_commit s t key w et peak k1 d).1 k
      ≤ potential s k := by
  cases d with
  | none => simp [medreg_commit, potential]
  | some r =>
    by_cases hkk : key = k
    · subst hkk
      have hns : key ∉ s.sold_positions := fun h => by simpa using hblock h
      simp [medreg_commit, potential, hns, List.countP, List.countP.go]
    · have hbeq : (key == k) = false := by simpa using hkk
      by_cases hks : k ∈ s.sold_positions <;>
        simp [medreg_commit, potential, List.countP, List.countP.go, hbeq,
          hkk, hks, Ne.symm hkk]

/-- Step-level accounting for the at-most-once invariant. -/
theorem medreg_step_count (m : Bool) (now : ℚ) (s : MState) (o : Obs)
    (k : String) :
    (medreg_step m now s o).2.countP (fun e => e.1 == k)
      + potential (medreg_step m now s o).1 k
      ≤ potential s k := by
  by_cases hz : o.shares = 0
  · simp [medreg_step, hz]
  · unfold medreg_step
    rw [if_neg hz]
    exact medreg_commit_count _ _ _ _ _ _ _ _ _ (fun h => by
      rw [decide_eq_true h]; exact decide_exits_sold _ _ _ _ _ _ _ _)

/-- Cycle-level accounting for the at-most-once invariant. -/
theorem medreg_cycle_count (m : Bool) (now : ℚ) (k : String) :
    ∀ (os : List Obs) (s : MState),
      (medreg_cycle m now s os).2.countP (fun e => e.1 == k)
        + potential (medreg_cycle m now s os).1 k
        ≤ potential s k := by
  intro os
  induction os with
  | nil => intro s; simp [medreg_cycle]
  | cons o rest ih =>
    intro s
    have h1 := medreg_step_count m now s o k
    have h2 := ih (medreg_step m now s o).1
    simp only [medreg_cycle, List.countP_append]
    omega

/-- Run-level accounting for the at-most-once invariant. -/
theorem medreg_run_count (k : String) :
    ∀ (cs : List MCycle) (s : MState),
      (medreg_run s cs).2.countP (fun e => e.1 == k)
        + potential (medreg_run s cs).1 k
        ≤ potential s k := by
  intro cs
  induction cs with
  | nil => intro s; simp [medreg_run]
  | cons c rest ih =>
    intro s
    have h1 := medreg_cycle_count c.manualReq c.now k c.positions s
    have h2 := ih (medreg_cycle c.manualReq c.now s c.positions).1
    simp only [medreg_run, List.countP_append]
    omega

/-! ## Claims -/

/-- C1 (amended): in the `median_regression.py` main loop, for every
sequence of polling cycles and every PositionKey, at most one successful
sell-order submission is ever issued for that key — `sold_positions`
gates all three sell blocks and a key is never removed from it. -/
theorem medreg_at_most_once_exit (cs : List MCycle) (k : String) :
    (medreg_run initMState cs).2.countP (fun e => e.1 == k) ≤ 1 := by
  have h := medreg_run_count k cs initMState
  have hinit : potential initMState k = 1 := by
    simp [potential, initMState]
  omega

/-- C1 (counterexample): the `autosell.py` loop does not keep a sold
set.  After a successful tier-3 trailing exit it deletes only the entry
time and the known-position flag, so when the venue still reports the
position open in the next cycle, the preserved peak and the recomputed
profit make the very same trailing rule fire again: two successful sell
submissions for the single PositionKey `T_10`. -/
theorem autosell_double_sell_cex :
    ((autosell_run initAState
        [(0, [⟨"T", 10, 400, 11/20, true, true⟩]),
         (2, [⟨"T", 10, 400, 1/2, true, true⟩]),
         (4, [⟨"T", 10, 400, 1/2, true, true⟩])]).2.countP
          (fun e => e.1 == "T_10")) = 2 := by
  norm_num [autosell_run, autosell_cycle, autosell_step, autosell_stop_phase,
    autosell_entry, initAState, aget, aput, adel, position_key, pnl_calc,
    get_trailing_stop, should_execute_stop, calculate_stop_loss, updateHist,
    ROLLING_WINDOW, MIN_HOLD_TIME, STOP_LOSS_PERCENT, STOP_LOSS_FLOOR,
    MAX_LOSS_PER_TRADE, TIME_BASED_STOP_LOSS, BREAK_EVEN_TIMER,
    List.find?, List.filter, List.erase, List.countP]
  decide

/-- C2 (amended): when a position simultaneously satisfies the
hard-stop-loss and the median-reversion conditions, with no manual
command pending and the minimum hold time elapsed, the evaluation emits
the MEDIAN-REVERSION exit whenever its submission succeeds — the main
loop checks median reversion before the safety stops, so the hard stop
is reached only if that submission fails. -/
theorem evaluator_emits_median_when_both (dev : ℚ) (thr : ℝ)
    (pnl current entry hold : ℚ) (ok : ExitReason → Bool)
    (hhold : MIN_HOLD_TIME ≤ hold) (hdev : thr ≤ ((dev : ℚ) : ℝ))
    (hpnl : 0 < pnl) (hok : ok .medianReversion = true) :
    decide_exits false false dev thr pnl current entry hold ok
      = some ExitReason.medianReversion := by
  simp [decide_exits, hdev, hpnl, hok]

/-- C2 (witness): deviation 50 against threshold 5, profit 200%, hold
35 seconds. -/
theorem evaluator_emits_median_when_both_witness :
    MIN_HOLD_TIME ≤ (35:ℚ) ∧ (5:ℝ) ≤ (((50:ℚ) : ℚ) : ℝ) ∧ (0:ℚ) < 200 ∧
      decide_exits false false 50 5 200 (3/10) (1/10) 35 (fun _ => true)
        = some ExitReason.medianReversion :=
  ⟨by norm_num [MIN_HOLD_TIME], by norm_num, by norm_num,
   evaluator_emits_median_when_both 50 5 200 (3/10) (1/10) 35 (fun _ => true)
     (by norm_num [MIN_HOLD_TIME]) (by norm_num) (by norm_num) rfl⟩

/-- C2 (counterexample): the claim predicts the hard stop.  On the
concrete state `cexState` at hold 35s, entry 10¢ and bid 30¢: the
hard-stop condition holds (`should_execute_stop` would report it), the
median-reversion condition holds (deviation 50% above the threshold,
profit 200%), no manual command — and the evaluation emits
`medianReversion`, never the hard stop, because the main loop runs the
median-reversion block first (lines 669-674 before 677-683). -/
theorem evaluator_priority_cex :
    should_execute_stop (3/10) (entry_of 100 10) 35 = some .stopLoss ∧
      thr_of cexState "T" (3/10) ≤ ((dev_of cexState "T" (3/10) : ℚ) : ℝ) ∧
      0 < pnl_calc (3/10) (entry_of 100 10) ∧
      MIN_HOLD_TIME ≤ (35:ℚ) ∧
      decide_exits false false (dev_of cexState "T" (3/10))
          (thr_of cexState "T" (3/10)) (pnl_calc (3/10) (entry_of 100 10))
          (3/10) (entry_of 100 10) 35 (fun _ => true)
        = some ExitReason.medianReversion := by
  refine ⟨?_, ?_, ?_, by norm_num [MIN_HOLD_TIME], cex_median_fires 35⟩
  · norm_num [should_execute_stop, calculate_stop_loss, pnl_calc, entry_of,
      STOP_LOSS_PERCENT, STOP_LOSS_FLOOR, MIN_HOLD_TIME, MAX_LOSS_PER_TRADE,
      TIME_BASED_STOP_LOSS, BREAK_EVEN_TIMER]
  · rw [cex_dev_eval]
    exact cex_thr_le
  · norm_num [pnl_calc, entry_of]

/-- C3 (amended): for a hold time under 30 seconds with no manual
command, none of the safety-stop rules can fire — `should_execute_stop`
returns `none` — but the median-reversion block is NOT gated by the
minimum hold time: the only exit the evaluation can emit before 30
seconds is the median reversion. -/
theorem stops_gated_by_min_hold (i : Bool) (dev : ℚ) (thr : ℝ)
    (pnl current entry hold : ℚ) (ok : ExitReason → Bool)
    (h : hold < MIN_HOLD_TIME) :
    should_execute_stop current entry hold = none ∧
      ∀ r, decide_exits false i dev thr pnl current entry hold ok = some r →
        r = ExitReason.medianReversion := by
  have h0 : should_execute_stop current entry hold = none := by
    simp only [should_execute_stop]
    rw [if_pos h]
  refine ⟨h0, ?_⟩
  intro r hr
  simp only [decide_exits, Bool.false_and, Bool.false_and] at hr
  rw [if_neg (by simp)] at hr
  by_cases h2 : (!i && decide (thr ≤ ((dev : ℚ) : ℝ)) && decide (0 < pnl)
      && ok .medianReversion) = true
  · rw [if_pos h2] at hr
    exact (Option.some.inj hr).symm
  · rw [if_neg h2] at hr
    by_cases h3 : (!i) = true
    · rw [if_pos h3, h0] at hr
      simp at hr
    · rw [if_neg h3] at hr
      simp at hr

/-- C3 (witness): hold 5 seconds gates every stop rule. -/
theorem stops_gated_by_min_hold_witness :
    (5:ℚ) < MIN_HOLD_TIME ∧ should_execute_stop (3/10) (1/10) 5 = none :=
  ⟨by norm_num [MIN_HOLD_TIME],
   (stops_gated_by_min_hold false 0 0 0 (3/10) (1/10) 5 (fun _ => true)
     (by norm_num [MIN_HOLD_TIME])).1⟩

/-- C3 (counterexample): the claim predicts no exit at all before 30
seconds.  On `cexState` at hold 5s the evaluation nonetheless emits the
median-reversion exit: the median-reversion block of the main loop runs
before `should_execute_stop` and carries no hold-time condition. -/
theorem min_hold_gate_cex :
    (5:ℚ) < MIN_HOLD_TIME ∧
      decide_exits false false (dev_of cexState "T" (3/10))
          (thr_of cexState "T" (3/10)) (pnl_calc (3/10) (entry_of 100 10))
          (3/10) (entry_of 100 10) 5 (fun _ => true)
        = some ExitReason.medianReversion :=
  ⟨by norm_num [MIN_HOLD_TIME], cex_median_fires 5⟩

/-- C4: a rolling window holding fewer than three observations yields a
median equal to the latest observed price and a deviation percentage of
zero. -/
theorem median_insufficient_data (window : List ℚ) (current : ℚ)
    (h : window.length < 3) :
    cycle_median window current = current ∧
      dev_calc current (cycle_median window current) = 0 := by
  have hm : cycle_median window current = current := by
    rw [cycle_median, if_neg (by omega)]
  refine ⟨hm, ?_⟩
  rw [hm, dev_calc]
  by_cases hc : current = 0
  · simp [hc]
  · simp [hc]

/-- C4 (witness): the singleton window. -/
theorem median_insufficient_data_witness :
    ([(1:ℚ)/2]).length < 3 ∧ cycle_median [(1:ℚ)/2] (1/2) = 1/2 ∧
      dev_calc (1/2) (cycle_median [(1:ℚ)/2] (1/2)) = 0 :=
  ⟨by norm_num,
   (median_insufficient_data [(1:ℚ)/2] (1/2) (by norm_num)).1,
   (median_insufficient_data [(1:ℚ)/2] (1/2) (by norm_num)).2⟩

/-- C7 (amended): a per-position failure does not crash the loop but it
does abort the remainder of the cycle: exactly the positions before the
first failing one are processed, and the cycle completes only when every
position processes successfully. -/
theorem cycle_stops_at_first_failure {α β : Type} (f : α → Option β)
    (ps : List α) :
    (cycle_process f ps).1.map Prod.fst
        = ps.takeWhile (fun p => (f p).isSome) ∧
      (cycle_process f ps).2 = ps.all (fun p => (f p).isSome) := by
  induction ps with
  | nil => simp [cycle_process]
  | cons p rest ih =>
    rcases hf : f p with _ | r <;>
      simp [cycle_process, hf, List.takeWhile, List.all, ih.1, ih.2]

/-- C7 (counterexample): with three positions where the middle one
fails, only the first is processed in that cycle; the third would have
succeeded but is never evaluated, refuting that every other position of
the cycle is still fetched and evaluated. -/
theorem cycle_abort_cex :
    (cycle_process (fun n : ℕ => if n == 1 then none else some n)
        [0, 1, 2]).1.map Prod.fst = [0] ∧
      ((fun n : ℕ => if n == 1 then none else some n) 2).isSome = true ∧
      2 ∉ (cycle_process (fun n : ℕ => if n == 1 then none else some n)
        [0, 1, 2]).1.map Prod.fst := by
  refine ⟨by decide, by decide, by decide⟩

/-- C9 (amended): a position observed with zero shares is skipped
silently: no order, no log entry, and the tracking state is left
completely untouched (retained, not evicted). -/
theorem zero_shares_skipped (m : Bool) (now : ℚ) (s : MState) (o : Obs)
    (h : o.shares = 0) :
    medreg_step m now s o = (s, []) := by
  rw [medreg_step, if_pos h]

/-- C9 (witness): a concrete zero-share observation on a concrete
state. -/
theorem zero_shares_skipped_witness :
    (Obs.shares ⟨"T", 0, 0, 1/2, fun _ => true⟩ = 0) ∧
      medreg_step false 10
          ⟨[("T", [1/2])], [("T", 3)], [("T", 1/2)], ["T_5"], []⟩
          ⟨"T", 0, 0, 1/2, fun _ => true⟩
        = (⟨[("T", [1/2])], [("T", 3)], [("T", 1/2)], ["T_5"], []⟩, []) :=
  ⟨rfl, zero_shares_skipped false 10 _ _ rfl⟩

/-- C9 (counterexample): the claim asserts the zero-share cycle evicts
all local tracking state; in fact the entry time of the ticker survives
the step unchanged. -/
theorem zero_shares_not_evicted_cex :
    aget ((medreg_step false 10
        ⟨[("T", [1/2])], [("T", 3)], [("T", 1/2)], ["T_5"], []⟩
        ⟨"T", 0, 0, 1/2, fun _ => true⟩).1).entry_times "T" = some 3 := by
  rw [medreg_step, if_pos rfl]
  simp [aget, List.find?]

/-- A commit that sold nothing stores back the entry time it was handed. -/
theorem medreg_commit_entry_time (s : MState) (t key : String) (w : List ℚ)
    (et peak : ℚ) (k1 : List String) (d : Option ExitReason)
    (h2 : (medreg_commit s t key w et peak k1 d).2 = []) :
    aget (medreg_commit s t key w et peak k1 d).1.entry_times t = some et := by
  cases d with
  | none => simp [medreg_commit, aget_aput_self]
  | some r => simp [medreg_commit] at h2

/-- C8 (amended): the loop stores no entry price at all — each cycle
recomputes it from the venue's currently reported cost basis — but the
entry TIME recorded at first observation is preserved unchanged by every
later cycle that does not sell the position. -/
theorem entry_time_preserved (m : Bool) (now t0 : ℚ) (s : MState) (o : Obs)
    (h1 : aget s.entry_times o.ticker = some t0)
    (h2 : (medreg_step m now s o).2 = []) :
    aget (medreg_step m now s o).1.entry_times o.ticker = some t0 := by
  by_cases hz : o.shares = 0
  · unfold medreg_step
    rw [if_pos hz]
    exact h1
  · unfold medreg_step at h2 ⊢
    rw [if_neg hz] at h2 ⊢
    have h3 := medreg_commit_entry_time s o.ticker _ _ _ _ _ _ h2
    have het : entry_time_of s o.ticker now = t0 := by
      rw [entry_time_of, h1]
      rfl
    rw [het] at h3 ⊢
    exact h3

/-- C8 (witness): an already tracked position, updated by a cycle whose
order submissions all fail, keeps its stored entry time. -/
theorem entry_time_preserved_witness :
    aget (MState.entry_times
        ⟨[("T", [1/2])], [("T", 3)], [("T", 1/2)], [], []⟩) "T" = some 3 ∧
      (medreg_step false 10 ⟨[("T", [1/2])], [("T", 3)], [("T", 1/2)], [], []⟩
        ⟨"T", 5, 100, 1/2, fun _ => false⟩).2 = [] ∧
      aget (medreg_step false 10
          ⟨[("T", [1/2])], [("T", 3)], [("T", 1/2)], [], []⟩
          ⟨"T", 5, 100, 1/2, fun _ => false⟩).1.entry_times "T" = some 3 := by
  have h1 : aget (MState.entry_times
      ⟨[("T", [1/2])], [("T", 3)], [("T", 1/2)], [], []⟩) "T" = some 3 := by
    simp [aget, List.find?]
  have h2 : (medreg_step false 10
      ⟨[("T", [1/2])], [("T", 3)], [("T", 1/2)], [], []⟩
      ⟨"T", 5, 100, 1/2, fun _ => false⟩).2 = [] := by
    unfold medreg_step
    rw [if_neg (by norm_num)]
    simp [medreg_commit, decide_exits_all_fail]
  exact ⟨h1, h2, entry_time_preserved false 10 3 _ _ h1 h2⟩

/-- C8 (counterexample): the entry price used in a cycle is a function
of the cost basis the venue reports that cycle.  Two cycles that report
the same PositionKey with costs 500¢ and 600¢ produce different entry
prices, refuting bit-for-bit immutability "whatever cost-basis values
the venue reports later". -/
theorem entry_price_recomputed_cex :
    position_key "T" 10 = position_key "T" 10 ∧
      entry_of 500 10 = 1/2 ∧ entry_of 600 10 = 3/5 ∧
      entry_of 500 10 ≠ entry_of 600 10 := by
  refine ⟨rfl, by norm_num [entry_of], by norm_num [entry_of], ?_⟩
  norm_num [entry_of]

/-- C5 (amended): for a window of at least three observations with
positive mean, the dynamic threshold equals
`base * (1 + volatilityPct / 100)` where `volatilityPct` is the
coefficient of variation computed from the SAMPLE standard deviation
(Bessel `n - 1` divisor, Python's `statistics.stdev`); with fewer than
three observations it is the unscaled base threshold. -/
theorem dynamic_threshold_sample_stdev (prices : List ℚ) :
    (3 ≤ prices.length → 0 < listMean prices →
      calculate_dynamic_threshold prices =
        ((DEVIATION_THRESHOLD_PCT : ℚ) : ℝ) *
          (1 + Real.sqrt ((sampleVariance prices : ℚ) : ℝ)
            / ((listMean prices : ℚ) : ℝ) * 100 / 100)) ∧
    (prices.length < 3 →
      calculate_dynamic_threshold prices = ((DEVIATION_THRESHOLD_PCT : ℚ) : ℝ)) := by
  constructor
  · intro h3 hm
    rw [calculate_dynamic_threshold, if_neg (by omega)]
    simp only [if_pos hm, pystdev]
    ring
  · intro h3
    rw [calculate_dynamic_threshold, if_pos h3]

/-- C5 (witness): the window `[1, 1, 4]`. -/
theorem dynamic_threshold_sample_stdev_witness :
    3 ≤ ([(1:ℚ), 1, 4]).length ∧ 0 < listMean [(1:ℚ), 1, 4] ∧
      calculate_dynamic_threshold [(1:ℚ), 1, 4] =
        ((DEVIATION_THRESHOLD_PCT : ℚ) : ℝ) *
          (1 + Real.sqrt ((sampleVariance [(1:ℚ), 1, 4] : ℚ) : ℝ)
            / ((listMean [(1:ℚ), 1, 4] : ℚ) : ℝ) * 100 / 100) :=
  ⟨by norm_num, by norm_num [listMean],
   (dynamic_threshold_sample_stdev [(1:ℚ), 1, 4]).1 (by norm_num)
     (by norm_num [listMean])⟩

/-- C5 (counterexample): the claim computes the coefficient of
variation from the POPULATION standard deviation; the code uses the
sample standard deviation.  On the window `[1, 1, 4]` (mean 2, sample
variance 3, population variance 2) the two thresholds differ. -/
theorem dynamic_threshold_population_cex :
    3 ≤ ([(1:ℚ), 1, 4]).length ∧ 0 < listMean [(1:ℚ), 1, 4] ∧
      calculate_dynamic_threshold [(1:ℚ), 1, 4]
        ≠ spec_dynamic_threshold [(1:ℚ), 1, 4] := by
  have hs : sampleVariance [(1:ℚ), 1, 4] = 3 := by
    norm_num [sampleVariance, listMean]
  have hp : popVariance [(1:ℚ), 1, 4] = 2 := by
    norm_num [popVariance, listMean]
  have hm : listMean [(1:ℚ), 1, 4] = 2 := by norm_num [listMean]
  refine ⟨by norm_num, by rw [hm]; norm_num, ?_⟩
  rw [calculate_dynamic_threshold, spec_dynamic_threshold]
  rw [if_neg (by norm_num), if_neg (by norm_num)]
  simp only [pystdev, hs, hp, hm, if_pos (show (0:ℚ) < 2 by norm_num)]
  have h23 : Real.sqrt ((2:ℚ) : ℝ) < Real.sqrt ((3:ℚ) : ℝ) := by
    apply Real.sqrt_lt_sqrt <;> norm_num
  have h2n : (0:ℝ) ≤ Real.sqrt ((2:ℚ) : ℝ) := Real.sqrt_nonneg _
  have hbase : (0:ℝ) < ((DEVIATION_THRESHOLD_PCT : ℚ) : ℝ) := by
    norm_num [DEVIATION_THRESHOLD_PCT]
  intro heq
  rw [show ((2:ℚ) : ℝ) = 2 by norm_num] at heq h23 h2n
  rw [show ((3:ℚ) : ℝ) = 3 by norm_num] at heq h23
  nlinarith [h23, h2n, hbase, heq]

/-- C6: whatever the window, the volatility adjustment can only widen
the threshold: the dynamic threshold is never below the base
threshold. -/
theorem dynamic_threshold_ge_base (prices : List ℚ)
    (hpos : ∀ x ∈ prices, 0 ≤ x) :
    ((DEVIATION_THRESHOLD_PCT : ℚ) : ℝ) ≤ calculate_dynamic_threshold prices := by
  rw [calculate_dynamic_threshold]
  split
  · exact le_refl _
  · by_cases hm : 0 < listMean prices
    · simp only [if_pos hm]
      have h1 : (0:ℝ) ≤ pystdev prices / ((listMean prices : ℚ) : ℝ) := by
        apply div_nonneg (Real.sqrt_nonneg _)
        exact_mod_cast hm.le
      have hbase : (0:ℝ) < ((DEVIATION_THRESHOLD_PCT : ℚ) : ℝ) := by
        norm_num [DEVIATION_THRESHOLD_PCT]
      nlinarith [h1, hbase]
    · simp only [if_neg hm]
      norm_num

/-- C6 (witness): the window `[1, 1, 4]` of non-negative prices. -/
theorem dynamic_threshold_ge_base_witness :
    (∀ x ∈ [(1:ℚ), 1, 4], 0 ≤ x) ∧
      ((DEVIATION_THRESHOLD_PCT : ℚ) : ℝ)
        ≤ calculate_dynamic_threshold [(1:ℚ), 1, 4] := by
  have hpos : ∀ x ∈ [(1:ℚ), 1, 4], 0 ≤ x := by
    intro x hx
    fin_cases hx <;> norm_num
  exact ⟨hpos, dynamic_threshold_ge_base [(1:ℚ), 1, 4] hpos⟩

/-- C10 (amended): with a zero entry price every computation is total —
`pnlPct` is defined as `0` — and the stop evaluator degenerates to: the
floor-based hard stop below the `0.35` floor, and otherwise the
break-even exit once the break-even timer has elapsed (pnl `0` lies
inside `[-2, 3]`); the max-loss and time-based stops can never fire. -/
theorem zero_entry_stop_characterization (bid hold : ℚ) :
    pnl_calc bid 0 = 0 ∧
      should_execute_stop bid 0 hold =
        (if hold < MIN_HOLD_TIME then none
         else if bid ≤ STOP_LOSS_FLOOR then some .stopLoss
         else if BREAK_EVEN_TIMER ≤ hold then some .breakEven
         else none) := by
  constructor
  · simp [pnl_calc]
  · simp only [should_execute_stop, pnl_calc, calculate_stop_loss]
    norm_num [STOP_LOSS_PERCENT, MAX_LOSS_PER_TRADE, TIME_BASED_STOP_LOSS]
    have hiff : (bid ≤ 0 ∨ bid ≤ STOP_LOSS_FLOOR) ↔ bid ≤ STOP_LOSS_FLOOR := by
      constructor
      · rintro (h0 | h1)
        · rw [STOP_LOSS_FLOOR]; linarith
        · exact h1
      · exact Or.inr
    simp [hiff]

/-- C10 (counterexample): the claim says the break-even rule can never
fire at zero entry price; it does fire — bid 50¢ is above the stop
floor, yet after 1800 seconds the evaluator emits the break-even exit,
a percentage-based rule. -/
theorem zero_entry_breakeven_cex :
    STOP_LOSS_FLOOR < (1:ℚ)/2 ∧
      should_execute_stop (1/2) 0 1800 = some .breakEven := by
  constructor
  · norm_num [STOP_LOSS_FLOOR]
  · norm_num [should_execute_stop, calculate_stop_loss, pnl_calc,
      STOP_LOSS_PERCENT, STOP_LOSS_FLOOR, MIN_HOLD_TIME, MAX_LOSS_PER_TRADE,
      TIME_BASED_STOP_LOSS, BREAK_EVEN_TIMER]

end MedianRegression
